import Mathlib

/-!
# cpp-transmit-example: the `main` of `src/main.cpp`

A shallow embedding of the command-line driver that asks an IPFS node to
transmit a file: argument-count check, splitting of the `host:port`
address, the call into the message encoder, and the one-shot UDP send.

Conventions of the embedding

* A C string / `std::string` is a `List Char`.
* `int` is 32 bits and `size_t` is 64 bits (LP64).  Conversions between the
  two are written out (`to_int`, `to_size_t`).  Because `int split_pos`
  truncates the index returned by `find`, statements about an address that
  contains a colon carry the bound that the address has at most `INT_MAX`
  characters; a command-line argument is always far shorter.
* Calls that leave the program (`printf`, `perror`, the encoder, `socket`,
  `sendto`, `close`) are recorded, in order, in a trace of `Event`s.  What
  the outside world answers (the encoder's buffer and length, the results
  of `socket` and `sendto`, the platform's `htons` and `inet_addr`) is read
  from an `Env`.
* `std::string::find`, `std::string::substr` and `std::stoi` follow the C++
  standard library (`stoi` is `strtol` in base 10 followed by the range
  check of `int`), exceptions included.  `main` has no handler, so a thrown
  exception ends the run in `std::terminate`.
-/

namespace Transmit

/-! ## Machine integers -/

/-- Largest value of `int`. -/
def INT_MAX : Int := 2147483647

/-- Smallest value of `int`. -/
def INT_MIN : Int := -2147483648

/-- The value `std::string::npos`, that is `size_t(-1)`. -/
def npos : Nat := 2 ^ 64 - 1

/-- Conversion `size_t → int` (as in `int split_pos = addr.find(":")`):
reduction modulo `2^32` into the signed range. -/
def to_int (n : Nat) : Int :=
  if n % 2 ^ 32 < 2 ^ 31 then ((n % 2 ^ 32 : Nat) : Int)
  else ((n % 2 ^ 32 : Nat) : Int) - 2 ^ 32

/-- Conversion `int → size_t`: reduction modulo `2^64`. -/
def to_size_t (z : Int) : Nat := (z % 2 ^ 64).toNat

/-- Conversion `int → uint16_t` (the parameter type of `htons`):
reduction modulo `2^16`. -/
def to_uint16 (z : Int) : Nat := (z % 2 ^ 16).toNat

/-! ## The pieces of the C++ standard library that `main` calls -/

/-- Exceptions of the standard library that can reach `main`. -/
inductive Exception where
  | invalid_argument
  | out_of_range
  deriving DecidableEq, Repr

/-- Results of throwing functions can be compared. -/
instance decEqExcept {ε α : Type} [DecidableEq ε] [DecidableEq α] :
    DecidableEq (Except ε α)
  | .ok a, .ok b =>
    if h : a = b then isTrue (congrArg Except.ok h)
    else isFalse (fun e => h (Except.ok.inj e))
  | .error a, .error b =>
    if h : a = b then isTrue (congrArg Except.error h)
    else isFalse (fun e => h (Except.error.inj e))
  | .ok _, .error _ => isFalse (fun e => Except.noConfusion e)
  | .error _, .ok _ => isFalse (fun e => Except.noConfusion e)

/-- Index of the first occurrence of `c`, if any. -/
def findChar (c : Char) : List Char → Option Nat
  | [] => none
  | x :: xs => if x = c then some 0 else (findChar c xs).map (· + 1)

/-- The call `s.find(":")` for a one-character needle `c`: the index of the
first occurrence, or `npos`. -/
def find (s : List Char) (c : Char) : Nat :=
  (findChar c s).getD npos

/-- The call `s.substr(pos, count)`: throws `std::out_of_range` when
`pos > s.size()`, otherwise the characters `[pos, min(pos + count, size))`. -/
def substr (s : List Char) (pos count : Nat) : Except Exception (List Char) :=
  if pos > s.length then .error .out_of_range
  else .ok ((s.drop pos).take count)

/-- The classification `isspace` of the "C" locale. -/
def isspace (c : Char) : Bool :=
  c = ' ' || c = '\t' || c = '\n' || c = '\x0b' || c = '\x0c' || c = '\r'

/-- The classification `isdigit`. -/
def isdigit (c : Char) : Bool :=
  48 ≤ c.toNat && c.toNat ≤ 57

/-- Value of a decimal digit character. -/
def digitVal (c : Char) : Nat := c.toNat - 48

/-- Value of a run of decimal digits, most significant first. -/
def digitsVal (ds : List Char) : Nat :=
  ds.foldl (fun acc c => 10 * acc + digitVal c) 0

/-- The call `std::stoi(s)` (base 10, no position output): skip leading
white space, read an optional sign, read the longest run of decimal digits
and ignore whatever follows.  No digit: `std::invalid_argument`.  Value
outside `int`: `std::out_of_range`. -/
def stoi (s : List Char) : Except Exception Int :=
  let s1 := s.dropWhile isspace
  let signed : Bool × List Char :=
    match s1 with
    | '-' :: r => (true, r)
    | '+' :: r => (false, r)
    | _ => (false, s1)
  let ds := signed.2.takeWhile isdigit
  if ds = [] then .error .invalid_argument
  else
    let v : Int := if signed.1 then -(digitsVal ds : Int) else (digitsVal ds : Int)
    if INT_MIN ≤ v ∧ v ≤ INT_MAX then .ok v else .error .out_of_range

/-! ## The outside world -/

/-- The constant `AF_INET` of `<sys/socket.h>`. -/
def AF_INET : Nat := 2

/-- The constant `SOCK_DGRAM` of `<sys/socket.h>`. -/
def SOCK_DGRAM : Nat := 2

/-- The fields of `struct sockaddr_in` that `main` fills in. -/
structure sockaddr_in where
  sin_family : Nat
  sin_port : Nat
  s_addr : Nat
  deriving DecidableEq, Repr

/-- What the encoder leaves behind: the contents of the 1024-byte array
`msg` after the call, and the returned length. -/
structure Encoded where
  msg : List Nat
  len : Int
  deriving DecidableEq, Repr

/-- Answers of the functions that `main` calls and that are not part of
`main.cpp`. -/
structure Env where
  /-- The encoder `generate_transmit_msg(msg, path, addr)` of `api.hpp`. -/
  generate_transmit_msg : List Char → List Char → Encoded
  /-- The result of `socket(AF_INET, SOCK_DGRAM, 0)`. -/
  socket : Int
  /-- The platform's `htons`, on a `uint16_t`. -/
  htons : Nat → Nat
  /-- The platform's `inet_addr`. -/
  inet_addr : List Char → Nat
  /-- The result of the `sendto` call. -/
  sendto : Int

/-- One call that leaves the program. -/
inductive Event where
  | printf (out : List Char)
  | perror (msg : List Char)
  | generate_transmit_msg (path addr : List Char)
  | socket (domain type protocol : Nat) (ret : Int)
  | sendto (sockfd : Int) (buf : List Nat) (len : Nat) (flags : Nat)
      (dest : sockaddr_in) (ret : Int)
  | close (sockfd : Int)
  deriving DecidableEq, Repr

/-- How a run of `main` ends. -/
inductive Outcome where
  /-- The statement `return code;` in `main`. -/
  | returned (code : Int)
  /-- The call `exit(code)`. -/
  | exited (code : Int)
  /-- An exception left `main`: `std::terminate`, hence `abort`. -/
  | terminated (e : Exception)
  /-- Signed overflow in `split_pos + 1`. -/
  | undefined
  deriving DecidableEq, Repr

/-- A finished run: the calls made, in order, and the way it ended. -/
structure Run where
  trace : List Event
  outcome : Outcome
  deriving DecidableEq, Repr

/-- The usage text. -/
def usage : List Char :=
  "Please provide three arguments: [ipfs_addr] [path_to_transmit] [destination_addr]\n".toList

/-- The text of
`printf("Sending {\"Transmit\": {\"path\": %s, \"addr\": %s}} to %s\n", path, dest, node)`. -/
def sendingLine (path dest node : List Char) : List Char :=
  "Sending \x7b\"Transmit\": \x7b\"path\": ".toList ++ path ++ ", \"addr\": ".toList ++ dest
    ++ "\x7d\x7d to ".toList ++ node ++ "\n".toList

/-- The text of `printf("Invalid address found %s", addr.c_str())`. -/
def invalidAddressLine (addr : List Char) : List Char :=
  "Invalid address found ".toList ++ addr

/-! ## `main` -/

/-- The local `int split_pos = addr.find(":")`. -/
def split_pos (addr : List Char) : Int := to_int (find addr ':')

/-- The local `std::string ip = addr.substr(0, split_pos)`. -/
def ip (addr : List Char) : Except Exception (List Char) :=
  substr addr 0 (to_size_t (split_pos addr))

/-- The local `std::string port = addr.substr(split_pos + 1)`. -/
def port (addr : List Char) : Except Exception (List Char) :=
  substr addr (to_size_t (split_pos addr + 1)) npos

/-- The function `main` of `main.cpp`; `argv` holds `argv[0] .. argv[argc-1]`. -/
def main (env : Env) (argv : List (List Char)) : Run :=
  let argc := argv.length
  if argc ≠ 4 then
    { trace := [.printf usage], outcome := .returned (-1) }
  else
    let t1 := [Event.printf (sendingLine (argv.getD 2 []) (argv.getD 3 []) (argv.getD 1 []))]
    -- Parse out network address
    let addr := argv.getD 1 []
    if to_size_t (split_pos addr) = npos then
      { trace := t1 ++ [.printf (invalidAddressLine addr)], outcome := .returned (-1) }
    else
      match ip addr with
      | .error e => { trace := t1, outcome := .terminated e }
      | .ok ip_str =>
        if split_pos addr + 1 > INT_MAX then { trace := t1, outcome := .undefined }
        else
          match port addr with
          | .error e => { trace := t1, outcome := .terminated e }
          | .ok port_str =>
            -- Call into Rust code to generate transmit message
            let enc := env.generate_transmit_msg (argv.getD 2 []) (argv.getD 3 [])
            let t2 := t1 ++ [.generate_transmit_msg (argv.getD 2 []) (argv.getD 3 [])]
            -- Send transmit over udp to ipfs instance
            let sockfd := env.socket
            let t3 := t2 ++ [.socket AF_INET SOCK_DGRAM 0 sockfd]
            if sockfd < 0 then
              { trace := t3 ++ [.perror "Socket creation failed".toList], outcome := .exited (-1) }
            else
              match stoi port_str with
              | .error e => { trace := t3, outcome := .terminated e }
              | .ok n =>
                let servaddr : sockaddr_in :=
                  { sin_family := AF_INET
                    sin_port := env.htons (to_uint16 n)
                    s_addr := env.inet_addr ip_str }
                { trace := t3 ++ [.sendto sockfd enc.msg (to_size_t enc.len) 0 servaddr env.sendto,
                                  .close sockfd],
                  outcome := .returned 0 }

/-! ## Observations on a run -/

/-- The process ends with a non-zero status: a return or `exit` code that is
non-zero modulo 256, or an abort. -/
def Outcome.nonZero : Outcome → Bool
  | .returned c => c % 256 != 0
  | .exited c => c % 256 != 0
  | .terminated _ => true
  | .undefined => false

/-- What the run printed, `printf` and `perror` texts in order. -/
def output : List Event → List (List Char)
  | [] => []
  | .printf s :: t => s :: output t
  | .perror s :: t => s :: output t
  | _ :: t => output t

/-- The event is a call of the encoder. -/
def Event.isEncode : Event → Bool
  | .generate_transmit_msg _ _ => true
  | _ => false

/-- The event is a call of `socket`. -/
def Event.isSocket : Event → Bool
  | .socket _ _ _ _ => true
  | _ => false

/-- The event is a call of `sendto`. -/
def Event.isSendto : Event → Bool
  | .sendto _ _ _ _ _ _ => true
  | _ => false

/-- The event is a successful call of `socket` (a descriptor was returned). -/
def Event.isSocketCreated : Event → Bool
  | .socket _ _ _ ret => decide (0 ≤ ret)
  | _ => false

/-- The event is a call of `close`. -/
def Event.isClose : Event → Bool
  | .close _ => true
  | _ => false

/-- The bytes that a `sendto` call hands to the kernel: the first `len`
bytes at `buf`. -/
def Event.datagram : Event → Option (List Nat)
  | .sendto _ buf len _ _ _ => some (buf.take len)
  | _ => none

/-! ## Decimal numerals, for building inputs -/

/-- Decimal numeral of a natural number. -/
def decimal (n : Nat) : List Char := Nat.toDigits 10 n

/-- Decimal numeral of an integer, with a leading `-` when negative. -/
def decimalInt (z : Int) : List Char :=
  if z < 0 then '-' :: decimal z.natAbs else decimal z.toNat

/-- An environment for concrete runs: the encoder writes `1, 2, 3` at the
start of a zeroed 1024-byte buffer and returns 3, `socket` returns
descriptor 3, `htons` swaps the two bytes (little-endian host), `inet_addr`
knows `127.0.0.1` (stored as `0x0100007f`) and answers `INADDR_NONE`
otherwise, and `sendto` reports 3 bytes sent. -/
def env0 : Env where
  generate_transmit_msg := fun _ _ => { msg := [1, 2, 3] ++ List.replicate 1021 0, len := 3 }
  socket := 3
  htons := fun x => (x % 256) * 256 + x / 256
  inet_addr := fun s => if s = "127.0.0.1".toList then 16777343 else 4294967295
  sendto := 3

/-! ## Lemmas on the integer conversions -/

theorem to_int_of_lt (n : Nat) (h : n < 2147483648) : to_int n = (n : Int) := by
  unfold to_int
  have h1 : n % 2 ^ 32 = n := Nat.mod_eq_of_lt (by omega)
  rw [h1]
  simp only [Nat.reducePow]
  rw [if_pos h]

theorem to_int_npos : to_int npos = -1 := by decide

theorem to_size_t_neg_one : to_size_t (-1) = npos := by decide

theorem to_size_t_of_nat (n : Nat) (h : n < 18446744073709551616) :
    to_size_t (n : Int) = n := by
  unfold to_size_t
  have h1 : ((n : Int) % 2 ^ 64) = (n : Int) := by omega
  rw [h1]
  simp

theorem to_size_t_of_nat_succ (n : Nat) (h : n < 2147483648) :
    to_size_t ((n : Int) + 1) = n + 1 := by
  have := to_size_t_of_nat (n + 1) (by omega)
  simpa using this

theorem to_uint16_of_le (p : Nat) (h : p ≤ 65535) : to_uint16 (p : Int) = p := by
  unfold to_uint16
  have h1 : ((p : Int) % 2 ^ 16) = (p : Int) := by omega
  rw [h1]
  simp

/-! ## Lemmas on `find` and `substr` -/

theorem findChar_none (c : Char) (s : List Char) (h : c ∉ s) : findChar c s = none := by
  induction s with
  | nil => rfl
  | cons x xs ih =>
    have hx : x ≠ c := fun e => h (by simp [e])
    have hxs : c ∉ xs := fun e => h (by simp [e])
    simp [findChar, hx, ih hxs]

theorem findChar_append (c : Char) (s r : List Char) (h : c ∉ s) :
    findChar c (s ++ c :: r) = some s.length := by
  induction s with
  | nil => simp [findChar]
  | cons x xs ih =>
    have hx : x ≠ c := fun e => h (by simp [e])
    have hxs : c ∉ xs := fun e => h (by simp [e])
    simp [findChar, hx, ih hxs]

theorem findChar_of_mem (c : Char) (s : List Char) (h : c ∈ s) :
    ∃ i, findChar c s = some i ∧ i < s.length := by
  induction s with
  | nil => simp at h
  | cons x xs ih =>
    by_cases hx : x = c
    · exact ⟨0, by simp [findChar, hx], by simp⟩
    · have hxs : c ∈ xs := by
        rcases List.mem_cons.mp h with e | e
        · exact absurd e.symm hx
        · exact e
      obtain ⟨i, hi, hlt⟩ := ih hxs
      exact ⟨i + 1, by simp [findChar, hx, hi], by simp [hlt]⟩

theorem split_pos_no_separator (addr : List Char) (h : ':' ∉ addr) :
    split_pos addr = -1 := by
  unfold split_pos find
  rw [findChar_none _ _ h]
  exact to_int_npos

theorem split_pos_append (host rest : List Char) (h : ':' ∉ host)
    (hlen : ((host ++ ':' :: rest).length : Int) ≤ INT_MAX) :
    split_pos (host ++ ':' :: rest) = (host.length : Int) := by
  unfold split_pos find
  rw [findChar_append _ _ _ h]
  simp only [Option.getD_some]
  apply to_int_of_lt
  simp [INT_MAX] at hlen
  omega

theorem ip_append (host rest : List Char) (h : ':' ∉ host)
    (hlen : ((host ++ ':' :: rest).length : Int) ≤ INT_MAX) :
    ip (host ++ ':' :: rest) = .ok host := by
  unfold ip
  rw [split_pos_append host rest h hlen]
  simp [INT_MAX] at hlen
  rw [to_size_t_of_nat _ (by omega)]
  simp [substr]

theorem port_append (host rest : List Char) (h : ':' ∉ host)
    (hlen : ((host ++ ':' :: rest).length : Int) ≤ INT_MAX) :
    port (host ++ ':' :: rest) = .ok rest := by
  unfold port
  rw [split_pos_append host rest h hlen]
  simp [INT_MAX] at hlen
  rw [to_size_t_of_nat_succ _ (by omega)]
  have hr : rest.length ≤ npos := by
    have : npos = 18446744073709551615 := by decide
    omega
  simp [substr, List.take_of_length_le hr]

/-! ## Lemmas on `stoi` -/

theorem digitChar_spec :
    ∀ m, m < 10 → isdigit (Nat.digitChar m) = true ∧ digitVal (Nat.digitChar m) = m := by
  decide

theorem isdigit_not_space_sign (c : Char) (h : isdigit c = true) :
    isspace c = false ∧ c ≠ '-' ∧ c ≠ '+' := by
  refine ⟨?_, ?_, ?_⟩
  · cases hs : isspace c with
    | false => rfl
    | true =>
      simp only [isspace, Bool.or_eq_true, decide_eq_true_eq] at hs
      rcases hs with ((((rfl | rfl) | rfl) | rfl) | rfl) | rfl <;> simp [isdigit] at h
  · rintro rfl
    simp [isdigit] at h
  · rintro rfl
    simp [isdigit] at h

/-- The sign-and-digits part of `stoi`, after white space was skipped. -/
theorem stoi_eq (s : List Char) :
    stoi s =
      (match s.dropWhile isspace with
       | '-' :: r =>
         if r.takeWhile isdigit = [] then .error .invalid_argument
         else if INT_MIN ≤ -(digitsVal (r.takeWhile isdigit) : Int)
              ∧ -(digitsVal (r.takeWhile isdigit) : Int) ≤ INT_MAX
           then .ok (-(digitsVal (r.takeWhile isdigit) : Int)) else .error .out_of_range
       | '+' :: r =>
         if r.takeWhile isdigit = [] then .error .invalid_argument
         else if INT_MIN ≤ (digitsVal (r.takeWhile isdigit) : Int)
              ∧ (digitsVal (r.takeWhile isdigit) : Int) ≤ INT_MAX
           then .ok (digitsVal (r.takeWhile isdigit) : Int) else .error .out_of_range
       | r =>
         if r.takeWhile isdigit = [] then .error .invalid_argument
         else if INT_MIN ≤ (digitsVal (r.takeWhile isdigit) : Int)
              ∧ (digitsVal (r.takeWhile isdigit) : Int) ≤ INT_MAX
           then .ok (digitsVal (r.takeWhile isdigit) : Int) else .error .out_of_range) := by
  unfold stoi
  split <;> simp_all

theorem dropWhile_spaces (ws l : List Char) (h : ∀ c ∈ ws, isspace c = true) :
    (ws ++ l).dropWhile isspace = l.dropWhile isspace := by
  induction ws with
  | nil => rfl
  | cons x xs ih =>
    have hx : isspace x = true := h x (by simp)
    have hxs : ∀ c ∈ xs, isspace c = true := fun c hc => h c (by simp [hc])
    simp [List.dropWhile, hx, ih hxs]

theorem dropWhile_head_not_space (c : Char) (l : List Char) (h : isspace c = false) :
    (c :: l).dropWhile isspace = c :: l := by
  simp [List.dropWhile, h]

theorem takeWhile_digits (ds rest : List Char) (h : ∀ c ∈ ds, isdigit c = true)
    (hrest : ∀ c ∈ rest.head?, isdigit c = false) :
    (ds ++ rest).takeWhile isdigit = ds := by
  induction ds with
  | nil =>
    cases rest with
    | nil => rfl
    | cons y ys =>
      have hy : isdigit y = false := hrest y (by simp)
      simp [List.takeWhile, hy]
  | cons x xs ih =>
    have hx : isdigit x = true := h x (by simp)
    have hxs : ∀ c ∈ xs, isdigit c = true := fun c hc => h c (by simp [hc])
    simp [List.takeWhile, hx, ih hxs]

/-- On a non-empty run of digits followed by a non-digit (or by nothing),
`stoi` returns the value of the run when it fits in `int` and throws
`std::out_of_range` otherwise. -/
theorem stoi_digits (ds rest : List Char) (hne : ds ≠ [])
    (h : ∀ c ∈ ds, isdigit c = true) (hrest : ∀ c ∈ rest.head?, isdigit c = false) :
    stoi (ds ++ rest) =
      if (digitsVal ds : Int) ≤ INT_MAX then .ok (digitsVal ds : Int)
      else .error .out_of_range := by
  cases ds with
  | nil => exact absurd rfl hne
  | cons d ds1 =>
    have hd : isdigit d = true := h d (by simp)
    obtain ⟨hsp, hm, hp⟩ := isdigit_not_space_sign d hd
    have htw := takeWhile_digits (d :: ds1) rest h hrest
    rw [stoi_eq]
    rw [List.cons_append, dropWhile_head_not_space d _ hsp]
    split
    · rename_i heq
      exact absurd (List.cons.inj heq).1 hm
    · rename_i heq
      exact absurd (List.cons.inj heq).1 hp
    · rw [← List.cons_append, htw]
      have hmin : INT_MIN ≤ ((digitsVal (d :: ds1) : Nat) : Int) := by
        have : (0 : Int) ≤ ((digitsVal (d :: ds1) : Nat) : Int) := Int.ofNat_nonneg _
        simp only [INT_MIN]
        omega
      simp [hmin]

/-- On `-` followed by a non-empty run of digits, `stoi` returns the negated
value of the run when it fits in `int` and throws `std::out_of_range`
otherwise. -/
theorem stoi_neg_digits (ds rest : List Char) (hne : ds ≠ [])
    (h : ∀ c ∈ ds, isdigit c = true) (hrest : ∀ c ∈ rest.head?, isdigit c = false) :
    stoi ('-' :: (ds ++ rest)) =
      if INT_MIN ≤ -(digitsVal ds : Int) then .ok (-(digitsVal ds : Int))
      else .error .out_of_range := by
  have htw := takeWhile_digits ds rest h hrest
  rw [stoi_eq]
  rw [dropWhile_head_not_space '-' _ (by decide)]
  simp only [htw, hne, if_false]
  have hmax : -((digitsVal ds : Nat) : Int) ≤ INT_MAX := by
    have : (0 : Int) ≤ ((digitsVal ds : Nat) : Int) := Int.ofNat_nonneg _
    simp only [INT_MAX]
    omega
  simp [hmax]

theorem takeWhile_head_not_digit (rest : List Char)
    (hrest : ∀ c ∈ rest.head?, isdigit c = false) : rest.takeWhile isdigit = [] := by
  simpa using takeWhile_digits [] rest (by simp) hrest

/-- When, after white space and an optional sign, no digit follows, `stoi`
throws `std::invalid_argument`. -/
theorem stoi_no_digit (ws sgn rest : List Char) (hws : ∀ c ∈ ws, isspace c = true)
    (hsgn : sgn = [] ∨ sgn = ['+'] ∨ sgn = ['-'])
    (hrest : ∀ c ∈ rest.head?, isdigit c = false ∧
      (sgn = [] → isspace c = false ∧ c ≠ '+' ∧ c ≠ '-')) :
    stoi (ws ++ sgn ++ rest) = .error .invalid_argument := by
  have htw : rest.takeWhile isdigit = [] :=
    takeWhile_head_not_digit rest (fun c hc => (hrest c hc).1)
  rw [stoi_eq, List.append_assoc, dropWhile_spaces ws _ hws]
  rcases hsgn with rfl | rfl | rfl
  · cases rest with
    | nil => simp
    | cons c r =>
      obtain ⟨-, hc⟩ := hrest c (by simp)
      obtain ⟨hsp, hp, hm⟩ := hc rfl
      rw [List.nil_append, dropWhile_head_not_space c r hsp]
      split
      · rename_i heq
        exact absurd (List.cons.inj heq).1 hm
      · rename_i heq
        exact absurd (List.cons.inj heq).1 hp
      · simp [htw]
  · rw [List.singleton_append, dropWhile_head_not_space '+' _ (by decide)]
    simp [htw]
  · rw [List.singleton_append, dropWhile_head_not_space '-' _ (by decide)]
    simp [htw]

/-! ## Lemmas on decimal numerals -/

theorem toDigitsCore_spec (fuel : Nat) :
    ∀ (n : Nat) (ds : List Char), n < fuel → (∀ c ∈ ds, isdigit c = true) →
      (∀ c ∈ Nat.toDigitsCore 10 fuel n ds, isdigit c = true) ∧
      Nat.toDigitsCore 10 fuel n ds ≠ [] ∧
      (Nat.toDigitsCore 10 fuel n ds).foldl (fun acc c => 10 * acc + digitVal c) 0 =
        ds.foldl (fun acc c => 10 * acc + digitVal c) n := by
  induction fuel with
  | zero => intro n ds h; omega
  | succ f ih =>
    intro n ds hn hds
    obtain ⟨hd1, hd2⟩ := digitChar_spec (n % 10) (Nat.mod_lt _ (by decide))
    have hds1 : ∀ c ∈ Nat.digitChar (n % 10) :: ds, isdigit c = true := by
      intro c hc
      rcases List.mem_cons.mp hc with rfl | hc
      · exact hd1
      · exact hds c hc
    unfold Nat.toDigitsCore
    by_cases h0 : n / 10 = 0
    · simp only [h0, if_true]
      refine ⟨hds1, by simp, ?_⟩
      simp only [List.foldl_cons, hd2]
      have : n % 10 = n := by omega
      simp [this]
    · simp only [h0, if_false]
      obtain ⟨h1, h2, h3⟩ := ih (n / 10) (Nat.digitChar (n % 10) :: ds) (by omega) hds1
      refine ⟨h1, h2, ?_⟩
      rw [h3]
      simp only [List.foldl_cons, hd2]
      have : 10 * (n / 10) + n % 10 = n := Nat.div_add_mod n 10
      rw [this]

theorem decimal_digits (n : Nat) : ∀ c ∈ decimal n, isdigit c = true :=
  (toDigitsCore_spec (n + 1) n [] (Nat.lt_succ_self n) (by simp)).1

theorem decimal_ne_nil (n : Nat) : decimal n ≠ [] :=
  (toDigitsCore_spec (n + 1) n [] (Nat.lt_succ_self n) (by simp)).2.1

theorem digitsVal_decimal (n : Nat) : digitsVal (decimal n) = n := by
  have h := (toDigitsCore_spec (n + 1) n [] (Nat.lt_succ_self n) (by simp)).2.2
  simpa [digitsVal, decimal, Nat.toDigits] using h

/-- The function `stoi` reads back a decimal numeral that fits in `int`, and
throws `std::out_of_range` on one that does not. -/
theorem stoi_decimal (n : Nat) :
    stoi (decimal n) = if (n : Int) ≤ INT_MAX then .ok (n : Int) else .error .out_of_range := by
  have h := stoi_digits (decimal n) [] (decimal_ne_nil n) (decimal_digits n) (by simp)
  rw [List.append_nil, digitsVal_decimal] at h
  exact h

theorem stoi_decimalInt (z : Int) :
    stoi (decimalInt z) =
      if INT_MIN ≤ z ∧ z ≤ INT_MAX then .ok z else .error .out_of_range := by
  unfold decimalInt
  by_cases hz : z < 0
  · rw [if_pos hz]
    have h := stoi_neg_digits (decimal z.natAbs) [] (decimal_ne_nil _) (decimal_digits _) (by simp)
    rw [List.append_nil, digitsVal_decimal] at h
    rw [h]
    have hz1 : -((z.natAbs : Nat) : Int) = z := by omega
    rw [hz1]
    have hmax : z ≤ INT_MAX := by simp only [INT_MAX]; omega
    simp [hmax]
  · rw [if_neg hz]
    rw [stoi_decimal]
    have hz1 : ((z.toNat : Nat) : Int) = z := by omega
    rw [hz1]
    have hmin : INT_MIN ≤ z := by simp only [INT_MIN]; omega
    simp [hmin]

/-! ## The shape of a run -/

/-- A three-argument run whose address-splitting steps all succeed: what is
left is the encoder call, the socket, the port conversion and the send. -/
theorem main_of_steps (env : Env) (prog node path dest h ps : List Char)
    (hsep : to_size_t (split_pos node) ≠ npos) (hip : ip node = .ok h)
    (hov : split_pos node + 1 ≤ INT_MAX) (hport : port node = .ok ps) :
    main env [prog, node, path, dest] =
      if env.socket < 0 then
        { trace := [.printf (sendingLine path dest node), .generate_transmit_msg path dest,
                    .socket AF_INET SOCK_DGRAM 0 env.socket,
                    .perror "Socket creation failed".toList],
          outcome := .exited (-1) }
      else
        match stoi ps with
        | .error e =>
          { trace := [.printf (sendingLine path dest node), .generate_transmit_msg path dest,
                      .socket AF_INET SOCK_DGRAM 0 env.socket],
            outcome := .terminated e }
        | .ok n =>
          { trace := [.printf (sendingLine path dest node), .generate_transmit_msg path dest,
                      .socket AF_INET SOCK_DGRAM 0 env.socket,
                      .sendto env.socket (env.generate_transmit_msg path dest).msg
                        (to_size_t (env.generate_transmit_msg path dest).len) 0
                        { sin_family := AF_INET, sin_port := env.htons (to_uint16 n),
                          s_addr := env.inet_addr h } env.sendto,
                      .close env.socket],
            outcome := .returned 0 } := by
  have hov1 : ¬ (split_pos node + 1 > INT_MAX) := not_lt.mpr hov
  unfold main
  simp only [List.length_cons, List.length_nil, List.getD_cons_succ, List.getD_cons_zero,
    hsep, hip, hport, hov1]
  by_cases hs : env.socket < 0
  · simp [hs]
  · cases hst : stoi ps <;> simp [hs]

/-- On an address `host:rest` whose host has no colon and which is at most
`INT_MAX` characters long, the separator is found and `split_pos + 1` does
not overflow. -/
theorem split_ok (host rest : List Char)
    (hhost : ':' ∉ host) (hlen : ((host ++ ':' :: rest).length : Int) ≤ INT_MAX) :
    to_size_t (split_pos (host ++ ':' :: rest)) ≠ npos ∧
    split_pos (host ++ ':' :: rest) + 1 ≤ INT_MAX := by
  rw [split_pos_append host rest hhost hlen]
  simp only [INT_MAX, List.length_append, List.length_cons] at hlen ⊢
  have hnpos : npos = 18446744073709551615 := by decide
  rw [to_size_t_of_nat _ (by omega), hnpos]
  constructor
  · omega
  · push_cast at hlen
    omega

/-- A three-argument run on an address `host:rest` whose host has no colon
and which is at most `INT_MAX` characters long. -/
theorem main_host_port (env : Env) (prog host rest path dest : List Char)
    (hhost : ':' ∉ host) (hlen : ((host ++ ':' :: rest).length : Int) ≤ INT_MAX) :
    main env [prog, host ++ ':' :: rest, path, dest] =
      if env.socket < 0 then
        { trace := [.printf (sendingLine path dest (host ++ ':' :: rest)),
                    .generate_transmit_msg path dest,
                    .socket AF_INET SOCK_DGRAM 0 env.socket,
                    .perror "Socket creation failed".toList],
          outcome := .exited (-1) }
      else
        match stoi rest with
        | .error e =>
          { trace := [.printf (sendingLine path dest (host ++ ':' :: rest)),
                      .generate_transmit_msg path dest,
                      .socket AF_INET SOCK_DGRAM 0 env.socket],
            outcome := .terminated e }
        | .ok n =>
          { trace := [.printf (sendingLine path dest (host ++ ':' :: rest)),
                      .generate_transmit_msg path dest,
                      .socket AF_INET SOCK_DGRAM 0 env.socket,
                      .sendto env.socket (env.generate_transmit_msg path dest).msg
                        (to_size_t (env.generate_transmit_msg path dest).len) 0
                        { sin_family := AF_INET, sin_port := env.htons (to_uint16 n),
                          s_addr := env.inet_addr host } env.sendto,
                      .close env.socket],
            outcome := .returned 0 } :=
  main_of_steps env prog (host ++ ':' :: rest) path dest host rest
    (split_ok host rest hhost hlen).1 (ip_append host rest hhost hlen)
    (split_ok host rest hhost hlen).2 (port_append host rest hhost hlen)

/-- A three-argument run on an address without a colon. -/
theorem main_no_separator (env : Env) (prog addr path dest : List Char) (h : ':' ∉ addr) :
    main env [prog, addr, path, dest] =
      { trace := [.printf (sendingLine path dest addr), .printf (invalidAddressLine addr)],
        outcome := .returned (-1) } := by
  unfold main
  simp [split_pos_no_separator addr h, to_size_t_neg_one]

/-- A run with an argument count other than four. -/
theorem main_usage (env : Env) (argv : List (List Char)) (h : argv.length ≠ 4) :
    main env argv = { trace := [.printf usage], outcome := .returned (-1) } := by
  unfold main
  simp [h]

theorem length_four (argv : List (List Char)) (h : argv.length = 4) :
    ∃ a b c d, argv = [a, b, c, d] := by
  match argv, h with
  | [a, b, c, d], _ => exact ⟨a, b, c, d, rfl⟩

/-! ## The claims -/

set_option maxRecDepth 20000

/-- C1. Address parsing round trip: for every host without a colon and every
port `p` with `0 ≤ p ≤ 65535`, on the node address `host ++ ":" ++ decimal p`
(an `argv` string, at most `INT_MAX` characters long) the
address-parsing steps of `main` take no error branch: the separator is
found, `ip` is exactly `host`, `port` is exactly the numeral, `std::stoi`
returns exactly `p`, the 16-bit truncation in front of `htons` leaves `p`
unchanged, and, once the socket exists, the run sends to
`htons p` / `inet_addr host` and returns 0. -/
theorem C1_address_round_trip (env : Env) (prog host path dest : List Char) (p : Nat)
    (hhost : ':' ∉ host) (hp : p ≤ 65535)
    (hlen : ((host ++ ':' :: decimal p).length : Int) ≤ INT_MAX) :
    to_size_t (split_pos (host ++ ':' :: decimal p)) ≠ npos ∧
    ip (host ++ ':' :: decimal p) = .ok host ∧
    split_pos (host ++ ':' :: decimal p) + 1 ≤ INT_MAX ∧
    port (host ++ ':' :: decimal p) = .ok (decimal p) ∧
    stoi (decimal p) = .ok (p : Int) ∧
    to_uint16 (p : Int) = p ∧
    (0 ≤ env.socket →
      main env [prog, host ++ ':' :: decimal p, path, dest] =
        { trace := [.printf (sendingLine path dest (host ++ ':' :: decimal p)),
                    .generate_transmit_msg path dest,
                    .socket AF_INET SOCK_DGRAM 0 env.socket,
                    .sendto env.socket (env.generate_transmit_msg path dest).msg
                      (to_size_t (env.generate_transmit_msg path dest).len) 0
                      { sin_family := AF_INET, sin_port := env.htons p,
                        s_addr := env.inet_addr host } env.sendto,
                    .close env.socket],
          outcome := .returned 0 }) := by
  have hst : stoi (decimal p) = .ok (p : Int) := by
    rw [stoi_decimal, if_pos (by simp only [INT_MAX]; omega)]
  refine ⟨(split_ok host _ hhost hlen).1, ip_append host _ hhost hlen,
    (split_ok host _ hhost hlen).2, port_append host _ hhost hlen, hst,
    to_uint16_of_le p hp, ?_⟩
  intro hs
  rw [main_host_port env prog host (decimal p) path dest hhost hlen, hst]
  simp only [not_lt.mpr hs, if_false, to_uint16_of_le p hp]

/-- C1 at the empty host, `":8080"`. -/
theorem C1_address_round_trip_witness :
    (':' ∉ ([] : List Char) ∧ 8080 ≤ 65535 ∧
      (([] ++ ':' :: decimal 8080).length : Int) ≤ INT_MAX ∧ 0 ≤ env0.socket) ∧
    [] ++ ':' :: decimal 8080 = ":8080".toList ∧
    ip ":8080".toList = .ok [] ∧
    port ":8080".toList = .ok "8080".toList ∧
    stoi "8080".toList = .ok 8080 ∧
    main env0 ["prog".toList, ":8080".toList, "/tmp/file.txt".toList,
        "127.0.0.1:4002".toList] =
      { trace := [.printf (sendingLine "/tmp/file.txt".toList "127.0.0.1:4002".toList
                    ":8080".toList),
                  .generate_transmit_msg "/tmp/file.txt".toList "127.0.0.1:4002".toList,
                  .socket AF_INET SOCK_DGRAM 0 3,
                  .sendto 3 ([1, 2, 3] ++ List.replicate 1021 0) 3 0
                    { sin_family := AF_INET, sin_port := env0.htons 8080,
                      s_addr := env0.inet_addr [] } 3,
                  .close 3],
        outcome := .returned 0 } :=
  have h := C1_address_round_trip env0 "prog".toList [] "/tmp/file.txt".toList
    "127.0.0.1:4002".toList 8080 (by decide) (by decide) (by decide)
  ⟨⟨by decide, by decide, by decide, by decide⟩, by decide, h.2.1, h.2.2.2.1, h.2.2.2.2.1,
    h.2.2.2.2.2.2 (by decide)⟩

/-- C2. Argument-count gate: whenever `argc ≠ 4`, `main` prints the usage
text and nothing else, returns `-1` (a non-zero status), and makes no
encoder, socket, send or close call. -/
theorem C2_argument_count_gate (env : Env) (argv : List (List Char))
    (h : argv.length ≠ 4) :
    main env argv = { trace := [.printf usage], outcome := .returned (-1) } ∧
    usage = "Please provide three arguments: [ipfs_addr] [path_to_transmit] [destination_addr]\n".toList ∧
    (main env argv).outcome.nonZero = true ∧
    (∀ e ∈ (main env argv).trace,
      e.isEncode = false ∧ e.isSocket = false ∧ e.isSendto = false ∧ e.isClose = false) := by
  rw [main_usage env argv h]
  refine ⟨rfl, rfl, by decide, ?_⟩
  intro e he
  rw [List.mem_singleton.mp he]
  exact ⟨rfl, rfl, rfl, rfl⟩

/-- C2 at two positional arguments. -/
theorem C2_argument_count_gate_witness :
    ["prog".toList, "127.0.0.1:4001".toList, "/tmp/file.txt".toList].length ≠ 4 ∧
    main env0 ["prog".toList, "127.0.0.1:4001".toList, "/tmp/file.txt".toList] =
      { trace := [.printf usage], outcome := .returned (-1) } :=
  ⟨by decide,
    (C2_argument_count_gate env0
      ["prog".toList, "127.0.0.1:4001".toList, "/tmp/file.txt".toList] (by decide)).1⟩

theorem exists_first (c : Char) (s : List Char) (h : c ∈ s) :
    ∃ host rest, s = host ++ c :: rest ∧ c ∉ host := by
  induction s with
  | nil => simp at h
  | cons x xs ih =>
    by_cases hx : x = c
    · exact ⟨[], xs, by simp [hx], by simp⟩
    · have hxs : c ∈ xs := by
        rcases List.mem_cons.mp h with e | e
        · exact absurd e.symm hx
        · exact e
      obtain ⟨host, rest, he, hn⟩ := ih hxs
      refine ⟨x :: host, rest, by simp [he], ?_⟩
      intro hm
      rcases List.mem_cons.mp hm with e | e
      · exact hx e.symm
      · exact hn e

theorem sendingLine_ne_invalidAddressLine (path dest node addr : List Char) :
    sendingLine path dest node ≠ invalidAddressLine addr := by
  intro h
  have h1 := congrArg List.head? h
  simp [sendingLine, invalidAddressLine] at h1

/-- C3. Missing separator: a three-argument run whose node address has no
colon prints the diagnostic `Invalid address found` followed by the address,
returns `-1` (non-zero), and makes no encoder, socket or send call.
Conversely, an address with a colon (an `argv` string, at most `INT_MAX`
characters long) does not take this branch: the separator test
fails and the diagnostic is not printed. -/
theorem C3_missing_separator (env : Env) (prog addr path dest : List Char) :
    (':' ∉ addr →
      main env [prog, addr, path, dest] =
        { trace := [.printf (sendingLine path dest addr), .printf (invalidAddressLine addr)],
          outcome := .returned (-1) } ∧
      addr <:+ invalidAddressLine addr ∧
      (main env [prog, addr, path, dest]).outcome.nonZero = true ∧
      (∀ e ∈ (main env [prog, addr, path, dest]).trace,
        e.isEncode = false ∧ e.isSocket = false ∧ e.isSendto = false)) ∧
    (':' ∈ addr → (addr.length : Int) ≤ INT_MAX →
      to_size_t (split_pos addr) ≠ npos ∧
      Event.printf (invalidAddressLine addr) ∉ (main env [prog, addr, path, dest]).trace) := by
  constructor
  · intro h
    rw [main_no_separator env prog addr path dest h]
    refine ⟨rfl, List.suffix_append _ _, rfl, ?_⟩
    intro e he
    simp only [List.mem_cons, List.mem_singleton, List.not_mem_nil, or_false] at he
    rcases he with rfl | rfl <;> exact ⟨rfl, rfl, rfl⟩
  · intro h hlen
    obtain ⟨host, rest, rfl, hhost⟩ := exists_first ':' addr h
    refine ⟨(split_ok host rest hhost hlen).1, ?_⟩
    rw [main_host_port env prog host rest path dest hhost hlen]
    have hne := sendingLine_ne_invalidAddressLine path dest (host ++ ':' :: rest)
      (host ++ ':' :: rest)
    by_cases hs : env.socket < 0
    · simp [hs, Ne.symm hne]
    · cases hst : stoi rest <;> simp [hs, Ne.symm hne]

/-- C3 at `noColonHere`, and its converse at `127.0.0.1:4001`. -/
theorem C3_missing_separator_witness :
    (':' ∉ "noColonHere".toList ∧
      main env0 ["prog".toList, "noColonHere".toList, "/tmp/file.txt".toList,
          "127.0.0.1:4002".toList] =
        { trace := [.printf (sendingLine "/tmp/file.txt".toList "127.0.0.1:4002".toList
                      "noColonHere".toList),
                    .printf (invalidAddressLine "noColonHere".toList)],
          outcome := .returned (-1) }) ∧
    (':' ∈ "127.0.0.1:4001".toList ∧ ("127.0.0.1:4001".toList.length : Int) ≤ INT_MAX ∧
      Event.printf (invalidAddressLine "127.0.0.1:4001".toList) ∉
        (main env0 ["prog".toList, "127.0.0.1:4001".toList, "/tmp/file.txt".toList,
          "127.0.0.1:4002".toList]).trace) :=
  ⟨⟨by decide,
    ((C3_missing_separator env0 "prog".toList "noColonHere".toList "/tmp/file.txt".toList
      "127.0.0.1:4002".toList).1 (by decide)).1⟩,
   ⟨by decide, by decide,
    ((C3_missing_separator env0 "prog".toList "127.0.0.1:4001".toList "/tmp/file.txt".toList
      "127.0.0.1:4002".toList).2 (by decide) (by decide)).2⟩⟩

/-- C4, refuted as stated: on `127.0.0.1:70000` nothing fails.  `std::stoi`
returns 70000, the conversion to `uint16_t` wraps it to
`70000 mod 2^16 = 4464`, the datagram is sent to that port and `main`
returns 0. -/
theorem C4_counterexample :
    decimalInt 70000 = "70000".toList ∧
    stoi "70000".toList = .ok 70000 ∧
    to_uint16 70000 = 4464 ∧
    main env0 ["prog".toList, "127.0.0.1:70000".toList, "/tmp/file.txt".toList,
        "127.0.0.1:4002".toList] =
      { trace := [.printf (sendingLine "/tmp/file.txt".toList "127.0.0.1:4002".toList
                    "127.0.0.1:70000".toList),
                  .generate_transmit_msg "/tmp/file.txt".toList "127.0.0.1:4002".toList,
                  .socket AF_INET SOCK_DGRAM 0 3,
                  .sendto 3 ([1, 2, 3] ++ List.replicate 1021 0) 3 0
                    { sin_family := AF_INET, sin_port := env0.htons 4464,
                      s_addr := env0.inet_addr "127.0.0.1".toList } 3,
                  .close 3],
        outcome := .returned 0 } := by
  decide

/-- C4, amended.  Let the node address be `host ++ ":" ++ decimal n` with `n`
outside `[0, 65535]` (host without colon, address at most `INT_MAX`
characters, socket created).  If `n` fits in `int`, nothing fails:
`std::stoi` returns `n`, the port handed to `htons` is `n mod 2^16`, which
differs from `n`, one datagram is sent and `main` returns 0.  If `n` does
not fit in `int`, `std::stoi` throws `std::out_of_range`, nothing catches
it, and the run ends in `std::terminate` after the socket call, with no send
and no close. -/
theorem C4_out_of_range_port (env : Env) (prog host path dest : List Char) (n : Int)
    (hhost : ':' ∉ host) (hn : n < 0 ∨ 65535 < n)
    (hlen : ((host ++ ':' :: decimalInt n).length : Int) ≤ INT_MAX)
    (hs : 0 ≤ env.socket) :
    (INT_MIN ≤ n ∧ n ≤ INT_MAX →
      stoi (decimalInt n) = .ok n ∧
      (to_uint16 n : Int) = n % 65536 ∧ (to_uint16 n : Int) ≠ n ∧
      main env [prog, host ++ ':' :: decimalInt n, path, dest] =
        { trace := [.printf (sendingLine path dest (host ++ ':' :: decimalInt n)),
                    .generate_transmit_msg path dest,
                    .socket AF_INET SOCK_DGRAM 0 env.socket,
                    .sendto env.socket (env.generate_transmit_msg path dest).msg
                      (to_size_t (env.generate_transmit_msg path dest).len) 0
                      { sin_family := AF_INET, sin_port := env.htons (to_uint16 n),
                        s_addr := env.inet_addr host } env.sendto,
                    .close env.socket],
          outcome := .returned 0 }) ∧
    (n < INT_MIN ∨ INT_MAX < n →
      stoi (decimalInt n) = .error .out_of_range ∧
      main env [prog, host ++ ':' :: decimalInt n, path, dest] =
        { trace := [.printf (sendingLine path dest (host ++ ':' :: decimalInt n)),
                    .generate_transmit_msg path dest,
                    .socket AF_INET SOCK_DGRAM 0 env.socket],
          outcome := .terminated .out_of_range }) := by
  have hmain := main_host_port env prog host (decimalInt n) path dest hhost hlen
  rw [if_neg (not_lt.mpr hs)] at hmain
  constructor
  · intro hr
    have hst : stoi (decimalInt n) = .ok n := by rw [stoi_decimalInt, if_pos hr]
    have h16 : (to_uint16 n : Int) = n % 65536 := by
      unfold to_uint16
      have : (0 : Int) ≤ n % 2 ^ 16 := Int.emod_nonneg _ (by norm_num)
      rw [Int.toNat_of_nonneg this]
      norm_num
    refine ⟨hst, h16, ?_, ?_⟩
    · rw [h16]
      omega
    · rw [hmain, hst]
  · intro hr
    have hst : stoi (decimalInt n) = .error .out_of_range := by
      rw [stoi_decimalInt, if_neg]
      intro hc
      rcases hr with hr | hr
      · exact absurd hc.1 (not_le.mpr hr)
      · exact absurd hc.2 (not_le.mpr hr)
    refine ⟨hst, ?_⟩
    rw [hmain, hst]

/-- C4 amended, at `127.0.0.1:70000` (wraps to 4464) and at `127.0.0.1:4294967296`
(does not fit in `int`). -/
theorem C4_out_of_range_port_witness :
    ((':' ∉ "127.0.0.1".toList ∧ ((70000 : Int) < 0 ∨ 65535 < (70000 : Int)) ∧
        (("127.0.0.1".toList ++ ':' :: decimalInt 70000).length : Int) ≤ INT_MAX ∧
        0 ≤ env0.socket ∧ INT_MIN ≤ (70000 : Int) ∧ (70000 : Int) ≤ INT_MAX) ∧
      stoi (decimalInt 70000) = .ok 70000 ∧
      (to_uint16 70000 : Int) = 70000 % 65536) ∧
    (((4294967296 : Int) < INT_MIN ∨ INT_MAX < (4294967296 : Int)) ∧
      (main env0 ["prog".toList, "127.0.0.1".toList ++ ':' :: decimalInt 4294967296,
        "/tmp/file.txt".toList, "127.0.0.1:4002".toList]).outcome =
        .terminated .out_of_range) :=
  have h1 := (C4_out_of_range_port env0 "prog".toList "127.0.0.1".toList "/tmp/file.txt".toList
    "127.0.0.1:4002".toList 70000 (by decide) (by decide) (by decide) (by decide)).1
    (by decide)
  have h2 := (C4_out_of_range_port env0 "prog".toList "127.0.0.1".toList "/tmp/file.txt".toList
    "127.0.0.1:4002".toList 4294967296 (by decide) (by decide) (by decide) (by decide)).2
    (by decide)
  ⟨⟨⟨by decide, by decide, by decide, by decide, by decide, by decide⟩, h1.1, h1.2.1⟩,
    by decide, congrArg Run.outcome h2.2⟩

/-- C5, refuted as stated: the port substrings `80abc` and `8080:1` are not
strings of digits only, yet nothing fails.  `std::stoi` reads the leading
digits and ignores the rest, the datagram is sent (to port 80 for
`127.0.0.1:80abc`, to port 8080 for `127.0.0.1:8080:1`) and `main`
returns 0. -/
theorem C5_counterexample :
    port "127.0.0.1:80abc".toList = .ok "80abc".toList ∧
    stoi "80abc".toList = .ok 80 ∧
    main env0 ["prog".toList, "127.0.0.1:80abc".toList, "/tmp/file.txt".toList,
        "127.0.0.1:4002".toList] =
      { trace := [.printf (sendingLine "/tmp/file.txt".toList "127.0.0.1:4002".toList
                    "127.0.0.1:80abc".toList),
                  .generate_transmit_msg "/tmp/file.txt".toList "127.0.0.1:4002".toList,
                  .socket AF_INET SOCK_DGRAM 0 3,
                  .sendto 3 ([1, 2, 3] ++ List.replicate 1021 0) 3 0
                    { sin_family := AF_INET, sin_port := env0.htons 80,
                      s_addr := env0.inet_addr "127.0.0.1".toList } 3,
                  .close 3],
        outcome := .returned 0 } ∧
    port "127.0.0.1:8080:1".toList = .ok "8080:1".toList ∧
    stoi "8080:1".toList = .ok 8080 ∧
    main env0 ["prog".toList, "127.0.0.1:8080:1".toList, "/tmp/file.txt".toList,
        "127.0.0.1:4002".toList] =
      { trace := [.printf (sendingLine "/tmp/file.txt".toList "127.0.0.1:4002".toList
                    "127.0.0.1:8080:1".toList),
                  .generate_transmit_msg "/tmp/file.txt".toList "127.0.0.1:4002".toList,
                  .socket AF_INET SOCK_DGRAM 0 3,
                  .sendto 3 ([1, 2, 3] ++ List.replicate 1021 0) 3 0
                    { sin_family := AF_INET, sin_port := env0.htons 8080,
                      s_addr := env0.inet_addr "127.0.0.1".toList } 3,
                  .close 3],
        outcome := .returned 0 } := by
  decide

/-- C5, amended.  Let the node address be `host ++ ":" ++ p` (host without
colon, address at most `INT_MAX` characters).

* If `p` is white space, then an optional sign, then something that does not
  start with a digit (as in `host:notanumber` and `host:`), `std::stoi`
  throws `std::invalid_argument`, nothing catches it: the run ends with a
  non-zero status and without any send; when the socket was created it ends
  in `std::terminate` right after the socket call.
* If `p` is a non-empty run of digits of value at most `INT_MAX`, followed by
  anything that does not start with a digit (as in `host:80abc` and
  `host:8080:1`), nothing fails: the port is the value of the digits, the
  datagram is sent and `main` returns 0. -/
theorem C5_non_numeric_port (env : Env) (prog host path dest : List Char) (hhost : ':' ∉ host) :
    (∀ ws sgn rest : List Char,
      (∀ c ∈ ws, isspace c = true) →
      (sgn = [] ∨ sgn = ['+'] ∨ sgn = ['-']) →
      (∀ c ∈ rest.head?, isdigit c = false ∧
        (sgn = [] → isspace c = false ∧ c ≠ '+' ∧ c ≠ '-')) →
      ((host ++ ':' :: (ws ++ sgn ++ rest)).length : Int) ≤ INT_MAX →
      stoi (ws ++ sgn ++ rest) = .error .invalid_argument ∧
      (main env [prog, host ++ ':' :: (ws ++ sgn ++ rest), path, dest]).outcome.nonZero = true ∧
      (∀ e ∈ (main env [prog, host ++ ':' :: (ws ++ sgn ++ rest), path, dest]).trace,
        e.isSendto = false) ∧
      (0 ≤ env.socket →
        main env [prog, host ++ ':' :: (ws ++ sgn ++ rest), path, dest] =
          { trace := [.printf (sendingLine path dest (host ++ ':' :: (ws ++ sgn ++ rest))),
                      .generate_transmit_msg path dest,
                      .socket AF_INET SOCK_DGRAM 0 env.socket],
            outcome := .terminated .invalid_argument })) ∧
    (∀ ds rest : List Char,
      ds ≠ [] → (∀ c ∈ ds, isdigit c = true) → (∀ c ∈ rest.head?, isdigit c = false) →
      (digitsVal ds : Int) ≤ INT_MAX →
      ((host ++ ':' :: (ds ++ rest)).length : Int) ≤ INT_MAX →
      0 ≤ env.socket →
      stoi (ds ++ rest) = .ok (digitsVal ds : Int) ∧
      main env [prog, host ++ ':' :: (ds ++ rest), path, dest] =
        { trace := [.printf (sendingLine path dest (host ++ ':' :: (ds ++ rest))),
                    .generate_transmit_msg path dest,
                    .socket AF_INET SOCK_DGRAM 0 env.socket,
                    .sendto env.socket (env.generate_transmit_msg path dest).msg
                      (to_size_t (env.generate_transmit_msg path dest).len) 0
                      { sin_family := AF_INET,
                        sin_port := env.htons (to_uint16 (digitsVal ds : Int)),
                        s_addr := env.inet_addr host } env.sendto,
                    .close env.socket],
          outcome := .returned 0 }) := by
  constructor
  · intro ws sgn rest hws hsgn hrest hlen
    have hst := stoi_no_digit ws sgn rest hws hsgn hrest
    have hmain := main_host_port env prog host (ws ++ sgn ++ rest) path dest hhost hlen
    rw [hst] at hmain
    refine ⟨hst, ?_, ?_, ?_⟩
    · rw [hmain]
      by_cases hs : env.socket < 0
      · rw [if_pos hs]; rfl
      · rw [if_neg hs]; rfl
    · rw [hmain]
      by_cases hs : env.socket < 0
      · simp [hs, Event.isSendto]
      · simp [hs, Event.isSendto]
    · intro hs
      rw [hmain, if_neg (not_lt.mpr hs)]
  · intro ds rest hne hds hrest hval hlen hs
    have hst : stoi (ds ++ rest) = .ok (digitsVal ds : Int) := by
      rw [stoi_digits ds rest hne hds hrest, if_pos hval]
    refine ⟨hst, ?_⟩
    rw [main_host_port env prog host (ds ++ rest) path dest hhost hlen,
      if_neg (not_lt.mpr hs), hst]

/-- C5 amended, at `host:notanumber` (rejected by `std::stoi`) and at
`host:80abc` (accepted as port 80). -/
theorem C5_non_numeric_port_witness :
    (':' ∉ "host".toList ∧ 0 ≤ env0.socket) ∧
    main env0 ["prog".toList, "host".toList ++ ':' :: ([] ++ [] ++ "notanumber".toList),
        "/tmp/file.txt".toList, "127.0.0.1:4002".toList] =
      { trace := [.printf (sendingLine "/tmp/file.txt".toList "127.0.0.1:4002".toList
                    ("host".toList ++ ':' :: ([] ++ [] ++ "notanumber".toList))),
                  .generate_transmit_msg "/tmp/file.txt".toList "127.0.0.1:4002".toList,
                  .socket AF_INET SOCK_DGRAM 0 env0.socket],
        outcome := .terminated .invalid_argument } ∧
    stoi ("80".toList ++ "abc".toList) = .ok (digitsVal "80".toList : Int) :=
  have h := C5_non_numeric_port env0 "prog".toList "host".toList "/tmp/file.txt".toList
    "127.0.0.1:4002".toList (by decide)
  ⟨⟨by decide, by decide⟩,
    (h.1 [] [] "notanumber".toList (by decide) (by decide) (by decide) (by decide)).2.2.2
      (by decide),
    (h.2 "80".toList "abc".toList (by decide) (by decide) (by decide) (by decide) (by decide)
      (by decide)).1⟩

/-- C6. Single send of exactly the encoded bytes: in a three-argument run
whose address-parsing steps succeed (separator found, `ip` and `port`
extracted, `std::stoi` returns `n`) and whose socket is created, the encoder
is called exactly once, with `(argv[2], argv[3])`, and exactly one `sendto`
is issued: on the created socket, to port `htons(n)` and host
`inet_addr(ip)`, with the encoder's buffer and the encoder's returned length.
The datagram is the first `len` bytes of that buffer, and has exactly `len`
bytes when `0 ≤ len` and `len` is within the buffer. -/
theorem C6_single_send (env : Env) (prog node path dest h ps : List Char) (n : Int)
    (hsep : to_size_t (split_pos node) ≠ npos) (hip : ip node = .ok h)
    (hov : split_pos node + 1 ≤ INT_MAX) (hport : port node = .ok ps)
    (hstoi : stoi ps = .ok n) (hs : 0 ≤ env.socket) :
    main env [prog, node, path, dest] =
      { trace := [.printf (sendingLine path dest node),
                  .generate_transmit_msg path dest,
                  .socket AF_INET SOCK_DGRAM 0 env.socket,
                  .sendto env.socket (env.generate_transmit_msg path dest).msg
                    (to_size_t (env.generate_transmit_msg path dest).len) 0
                    { sin_family := AF_INET, sin_port := env.htons (to_uint16 n),
                      s_addr := env.inet_addr h } env.sendto,
                  .close env.socket],
        outcome := .returned 0 } ∧
    (main env [prog, node, path, dest]).trace.countP Event.isEncode = 1 ∧
    (main env [prog, node, path, dest]).trace.countP Event.isSendto = 1 ∧
    (main env [prog, node, path, dest]).trace.filterMap Event.datagram =
      [(env.generate_transmit_msg path dest).msg.take
        (to_size_t (env.generate_transmit_msg path dest).len)] ∧
    ((env.generate_transmit_msg path dest).msg.length = 1024 →
      0 ≤ (env.generate_transmit_msg path dest).len →
      (env.generate_transmit_msg path dest).len ≤ 1024 →
      ((((env.generate_transmit_msg path dest).msg.take
        (to_size_t (env.generate_transmit_msg path dest).len)).length : Nat) : Int) =
        (env.generate_transmit_msg path dest).len) := by
  have hmain := main_of_steps env prog node path dest h ps hsep hip hov hport
  rw [if_neg (not_lt.mpr hs), hstoi] at hmain
  refine ⟨hmain, ?_, ?_, ?_, ?_⟩
  · rw [hmain]; rfl
  · rw [hmain]; rfl
  · rw [hmain]; rfl
  · intro hbuf h0 hle
    obtain ⟨k, hk⟩ := Int.eq_ofNat_of_zero_le h0
    rw [hk] at hle ⊢
    rw [to_size_t_of_nat k (by omega), List.length_take, hbuf]
    have : k ≤ 1024 := by omega
    rw [Nat.min_eq_left this]

/-- C6 at the scenario `127.0.0.1:4001`, `/tmp/file.txt`, `127.0.0.1:4002`. -/
theorem C6_single_send_witness :
    (to_size_t (split_pos "127.0.0.1:4001".toList) ≠ npos ∧
      ip "127.0.0.1:4001".toList = .ok "127.0.0.1".toList ∧
      split_pos "127.0.0.1:4001".toList + 1 ≤ INT_MAX ∧
      port "127.0.0.1:4001".toList = .ok "4001".toList ∧
      stoi "4001".toList = .ok 4001 ∧ 0 ≤ env0.socket) ∧
    main env0 ["prog".toList, "127.0.0.1:4001".toList, "/tmp/file.txt".toList,
        "127.0.0.1:4002".toList] =
      { trace := [.printf (sendingLine "/tmp/file.txt".toList "127.0.0.1:4002".toList
                    "127.0.0.1:4001".toList),
                  .generate_transmit_msg "/tmp/file.txt".toList "127.0.0.1:4002".toList,
                  .socket AF_INET SOCK_DGRAM 0 env0.socket,
                  .sendto env0.socket
                    (env0.generate_transmit_msg "/tmp/file.txt".toList
                      "127.0.0.1:4002".toList).msg
                    (to_size_t (env0.generate_transmit_msg "/tmp/file.txt".toList
                      "127.0.0.1:4002".toList).len) 0
                    { sin_family := AF_INET, sin_port := env0.htons (to_uint16 4001),
                      s_addr := env0.inet_addr "127.0.0.1".toList } env0.sendto,
                  .close env0.socket],
        outcome := .returned 0 } ∧
    (main env0 ["prog".toList, "127.0.0.1:4001".toList, "/tmp/file.txt".toList,
        "127.0.0.1:4002".toList]).trace.filterMap Event.datagram = [[1, 2, 3]] :=
  have h := C6_single_send env0 "prog".toList "127.0.0.1:4001".toList "/tmp/file.txt".toList
    "127.0.0.1:4002".toList "127.0.0.1".toList "4001".toList 4001
    (by decide) (by decide) (by decide) (by decide) (by decide) (by decide)
  ⟨⟨by decide, by decide, by decide, by decide, by decide, by decide⟩, h.1,
    h.2.2.2.1.trans (by decide)⟩

/-- C7, the failing run: on `127.0.0.1:abc` the socket is created (descriptor
3), then `std::stoi("abc")` throws `std::invalid_argument` and the run ends in
`std::terminate`: one successful `socket` call, no `close` call. -/
theorem C7_socket_not_released_on_bad_port :
    (main env0 ["prog".toList, "127.0.0.1:abc".toList, "/tmp/file.txt".toList,
        "127.0.0.1:4002".toList]).outcome = .terminated .invalid_argument ∧
    (main env0 ["prog".toList, "127.0.0.1:abc".toList, "/tmp/file.txt".toList,
        "127.0.0.1:4002".toList]).trace.countP Event.isSocketCreated = 1 ∧
    (main env0 ["prog".toList, "127.0.0.1:abc".toList, "/tmp/file.txt".toList,
        "127.0.0.1:4002".toList]).trace.countP Event.isClose = 0 := by
  decide

/-- C8, refuted as stated.  On the malformed address `host:notanumber` the
socket is created before the port is converted: the run ends in
`std::terminate` with the `socket` call already in its trace, and the only
text printed is the `Sending ...` line, no diagnostic of the address.  On
the out-of-range port of `127.0.0.1:70000` nothing is reported at all: the
datagram is sent and `main` returns 0. -/
theorem C8_counterexample :
    (main env0 ["prog".toList, "host:notanumber".toList, "/tmp/file.txt".toList,
        "127.0.0.1:4002".toList]).outcome = .terminated .invalid_argument ∧
    Event.socket AF_INET SOCK_DGRAM 0 3 ∈
      (main env0 ["prog".toList, "host:notanumber".toList, "/tmp/file.txt".toList,
        "127.0.0.1:4002".toList]).trace ∧
    (main env0 ["prog".toList, "host:notanumber".toList, "/tmp/file.txt".toList,
        "127.0.0.1:4002".toList]).trace.countP Event.isSocketCreated = 1 ∧
    output (main env0 ["prog".toList, "host:notanumber".toList, "/tmp/file.txt".toList,
        "127.0.0.1:4002".toList]).trace =
      [sendingLine "/tmp/file.txt".toList "127.0.0.1:4002".toList "host:notanumber".toList] ∧
    (main env0 ["prog".toList, "127.0.0.1:70000".toList, "/tmp/file.txt".toList,
        "127.0.0.1:4002".toList]).outcome = .returned 0 ∧
    (main env0 ["prog".toList, "127.0.0.1:70000".toList, "/tmp/file.txt".toList,
        "127.0.0.1:4002".toList]).trace.countP Event.isSendto = 1 := by
  decide

/-- C8, amended to the missing separator: a three-argument run whose node
address has no colon prints, after the `Sending ...` line, the diagnostic
`Invalid address found` followed by the offending address, ends with a
non-zero status, and has made no `socket` call, no encoder call and no
`sendto` call. -/
theorem C8_address_error_before_socket (env : Env) (prog addr path dest : List Char)
    (h : ':' ∉ addr) :
    output (main env [prog, addr, path, dest]).trace =
      [sendingLine path dest addr, "Invalid address found ".toList ++ addr] ∧
    (main env [prog, addr, path, dest]).outcome.nonZero = true ∧
    (main env [prog, addr, path, dest]).trace.countP Event.isSocket = 0 ∧
    (main env [prog, addr, path, dest]).trace.countP Event.isEncode = 0 ∧
    (main env [prog, addr, path, dest]).trace.countP Event.isSendto = 0 := by
  rw [main_no_separator env prog addr path dest h]
  exact ⟨rfl, rfl, rfl, rfl, rfl⟩

/-- C8 amended, at `noColonHere`. -/
theorem C8_address_error_before_socket_witness :
    ':' ∉ "noColonHere".toList ∧
    output (main env0 ["prog".toList, "noColonHere".toList, "/tmp/file.txt".toList,
        "127.0.0.1:4002".toList]).trace =
      [sendingLine "/tmp/file.txt".toList "127.0.0.1:4002".toList "noColonHere".toList,
        "Invalid address found ".toList ++ "noColonHere".toList] ∧
    (main env0 ["prog".toList, "noColonHere".toList, "/tmp/file.txt".toList,
        "127.0.0.1:4002".toList]).trace.countP Event.isSocket = 0 :=
  have h := C8_address_error_before_socket env0 "prog".toList "noColonHere".toList
    "/tmp/file.txt".toList "127.0.0.1:4002".toList (by decide)
  ⟨by decide, h.1, h.2.2.1⟩

/-- C9. Exit status does not depend on the send outcome: in a three-argument
run whose address-parsing steps succeed and whose socket is created, the
`sendto` call is issued and `main` returns 0, whatever value `r` the
`sendto` call reports (success or failure). -/
theorem C9_exit_status_ignores_send (env : Env) (prog node path dest h ps : List Char)
    (n : Int)
    (hsep : to_size_t (split_pos node) ≠ npos) (hip : ip node = .ok h)
    (hov : split_pos node + 1 ≤ INT_MAX) (hport : port node = .ok ps)
    (hstoi : stoi ps = .ok n) (hs : 0 ≤ env.socket) (r : Int) :
    (main { env with sendto := r } [prog, node, path, dest]).outcome = .returned 0 ∧
    Event.sendto env.socket (env.generate_transmit_msg path dest).msg
        (to_size_t (env.generate_transmit_msg path dest).len) 0
        { sin_family := AF_INET, sin_port := env.htons (to_uint16 n),
          s_addr := env.inet_addr h } r ∈
      (main { env with sendto := r } [prog, node, path, dest]).trace := by
  have hmain := main_of_steps { env with sendto := r } prog node path dest h ps hsep hip hov
    hport
  rw [if_neg (not_lt.mpr hs), hstoi] at hmain
  rw [hmain]
  exact ⟨rfl, by simp⟩

/-- C9 at `127.0.0.1:4001` with a failed send (`sendto` reports `-1`). -/
theorem C9_exit_status_ignores_send_witness :
    (to_size_t (split_pos "127.0.0.1:4001".toList) ≠ npos ∧
      ip "127.0.0.1:4001".toList = .ok "127.0.0.1".toList ∧
      split_pos "127.0.0.1:4001".toList + 1 ≤ INT_MAX ∧
      port "127.0.0.1:4001".toList = .ok "4001".toList ∧
      stoi "4001".toList = .ok 4001 ∧ 0 ≤ env0.socket) ∧
    (main { env0 with sendto := -1 } ["prog".toList, "127.0.0.1:4001".toList,
      "/tmp/file.txt".toList, "127.0.0.1:4002".toList]).outcome = .returned 0 :=
  ⟨⟨by decide, by decide, by decide, by decide, by decide, by decide⟩,
    (C9_exit_status_ignores_send env0 "prog".toList "127.0.0.1:4001".toList
      "/tmp/file.txt".toList "127.0.0.1:4002".toList "127.0.0.1".toList "4001".toList 4001
      (by decide) (by decide) (by decide) (by decide) (by decide) (by decide) (-1)).1⟩

/-- C10, refuted as stated: the run on `127.0.0.1:4001` in which `sendto`
reports failure (`-1`) prints exactly what the run in which it reports
success prints, the `Sending ...` line alone: nothing is logged for the
failure. -/
theorem C10_counterexample :
    Event.sendto 3 ([1, 2, 3] ++ List.replicate 1021 0) 3 0
        { sin_family := AF_INET, sin_port := env0.htons 4001,
          s_addr := env0.inet_addr "127.0.0.1".toList } (-1) ∈
      (main { env0 with sendto := -1 } ["prog".toList, "127.0.0.1:4001".toList,
        "/tmp/file.txt".toList, "127.0.0.1:4002".toList]).trace ∧
    output (main { env0 with sendto := -1 } ["prog".toList, "127.0.0.1:4001".toList,
        "/tmp/file.txt".toList, "127.0.0.1:4002".toList]).trace =
      output (main { env0 with sendto := 3 } ["prog".toList, "127.0.0.1:4001".toList,
        "/tmp/file.txt".toList, "127.0.0.1:4002".toList]).trace ∧
    output (main { env0 with sendto := -1 } ["prog".toList, "127.0.0.1:4001".toList,
        "/tmp/file.txt".toList, "127.0.0.1:4002".toList]).trace =
      [sendingLine "/tmp/file.txt".toList "127.0.0.1:4002".toList "127.0.0.1:4001".toList] := by
  decide

/-- C10, amended: the result of `sendto` is discarded.  For every run, what is
printed and how the run ends are the same whatever `sendto` reports, so no
message is emitted for a failed send; and whenever a `sendto` call was
issued, the socket is released by a `close` call. -/
theorem C10_send_failure_not_logged (env : Env) (argv : List (List Char)) (r1 r2 : Int) :
    output (main { env with sendto := r1 } argv).trace =
      output (main { env with sendto := r2 } argv).trace ∧
    (main { env with sendto := r1 } argv).outcome =
      (main { env with sendto := r2 } argv).outcome ∧
    (∀ e ∈ (main { env with sendto := r1 } argv).trace, e.isSendto = true →
      Event.close env.socket ∈ (main { env with sendto := r1 } argv).trace) := by
  by_cases h4 : argv.length = 4
  · obtain ⟨prog, node, path, dest, rfl⟩ := length_four argv h4
    by_cases hsep : to_size_t (split_pos node) = npos
    · simp [main, hsep, Event.isSendto]
    · cases hip : ip node with
      | error e => simp [main, hsep, hip, Event.isSendto]
      | ok h =>
        by_cases hov : split_pos node + 1 > INT_MAX
        · simp [main, hsep, hip, hov, Event.isSendto]
        · cases hport : port node with
          | error e => simp [main, hsep, hip, hov, hport, Event.isSendto]
          | ok ps =>
            by_cases hs : env.socket < 0
            · simp [main, hsep, hip, hov, hport, hs, Event.isSendto]
            · cases hst : stoi ps with
              | error e => simp [main, hsep, hip, hov, hport, hs, hst, Event.isSendto]
              | ok n => simp [main, hsep, hip, hov, hport, hs, hst, Event.isSendto, output]
  · simp [main, h4, Event.isSendto]

/-- C10 amended, at `127.0.0.1:4001` with a failed (`-1`) and a successful
(`3`) send. -/
theorem C10_send_failure_not_logged_witness :
    output (main { env0 with sendto := -1 } ["prog".toList, "127.0.0.1:4001".toList,
        "/tmp/file.txt".toList, "127.0.0.1:4002".toList]).trace =
      output (main { env0 with sendto := 3 } ["prog".toList, "127.0.0.1:4001".toList,
        "/tmp/file.txt".toList, "127.0.0.1:4002".toList]).trace ∧
    (main { env0 with sendto := -1 } ["prog".toList, "127.0.0.1:4001".toList,
        "/tmp/file.txt".toList, "127.0.0.1:4002".toList]).outcome =
      (main { env0 with sendto := 3 } ["prog".toList, "127.0.0.1:4001".toList,
        "/tmp/file.txt".toList, "127.0.0.1:4002".toList]).outcome :=
  have h := C10_send_failure_not_logged env0 ["prog".toList, "127.0.0.1:4001".toList,
    "/tmp/file.txt".toList, "127.0.0.1:4002".toList] (-1) 3
  ⟨h.1, h.2.1⟩

end Transmit
